import Mathlib

/-!
Verification of the startup wiring in cmd/influxd/run.go and of the
election-safety property of the consensus layer it configures.

The Go code is shallowly embedded: filesystem probes, broker opens and
network joins are oracles (Bool-valued parameters), URLs are strings, and
log.Fatalf (which terminates the process) is a distinguished outcome
constructor, kept separate from returning an error to the caller.
-/

namespace Influxd

/-- URLs are modelled as plain strings (net/url URL values). -/
abbrev URL := String

/-- Relevant fields of the Config structure: run.go reads the hostname,
the comma-separated join URL list, and the broker/data directories. -/
structure Config where
  Hostname : String
  JoinURLs : String
  BrokerDir : String
  DataDir : String
  deriving DecidableEq, Repr

/-- Splits a character list at commas, mirroring Go strings.Split(s, ","). -/
def splitOnCommaAux : List Char → List Char → List String
  | [], acc => [String.mk acc.reverse]
  | c :: rest, acc =>
      if c = ',' then String.mk acc.reverse :: splitOnCommaAux rest []
      else splitOnCommaAux rest (c :: acc)

/-- parseURLs (run.go:455-468): returns nil for the empty string, otherwise
splits on commas. Go url.Parse is modelled as the identity on strings (a
parse failure is fatal in the source and is not relevant to any claim). -/
def parseURLs (s : String) : List URL :=
  if s = "" then [] else splitOnCommaAux s.data []

/-- initBroker (run.go:86): true exactly when the broker directory does not
exist. The filesystem is an oracle mapping paths to existence. -/
def initBroker (fileExists : String → Bool) (config : Config) : Bool :=
  !(fileExists config.BrokerDir)

/-- initServer (run.go:90-93): the data directory is missing, or-ed with
initBroker (line 93 reassigns initServer = initServer || initBroker). -/
def initServer (fileExists : String → Bool) (config : Config) : Bool :=
  (!(fileExists config.DataDir)) || initBroker fileExists config

/-- Join URL selection (run.go:96-101): the -join flag wins when non-empty,
otherwise the config file value is used. -/
def runJoinURLs (config : Config) (join : String) : List URL :=
  if join = "" then parseURLs config.JoinURLs else parseURLs join

/-- Which of the mutually exclusive initialization paths the init block of
openBroker takes. -/
inductive InitAction where
  /-- Not initializing: the existing on-disk state is opened as-is. -/
  | openExisting
  /-- l.Initialize() is called (bootstrap a new cluster). -/
  | callInitialize
  /-- joinLog(l, urls) is called (join an existing cluster). -/
  | callJoin (urls : List URL)
  deriving DecidableEq, Repr

/-- The init block of openBroker (run.go:357-365): only when initializing,
either Initialize (no join URLs) or joinLog (some join URLs) runs. -/
def brokerInitAction (initializing : Bool) (joinURLs : List URL) : InitAction :=
  if initializing then
    if joinURLs = [] then InitAction.callInitialize
    else InitAction.callJoin joinURLs
  else InitAction.openExisting

/-- C8: when the -join flag is non-empty the config JoinURLs value is never
consulted (the result is independent of the config), and when the flag is
empty the list comes from the config alone. -/
theorem join_flag_overrides_config (config : Config) (join : String) :
    (join ≠ "" → runJoinURLs config join = parseURLs join) ∧
    (join ≠ "" → ∀ config2 : Config,
      runJoinURLs config join = runJoinURLs config2 join) ∧
    (join = "" → runJoinURLs config join = parseURLs config.JoinURLs) := by
  refine ⟨fun h => ?_, fun h config2 => ?_, fun h => ?_⟩
  · simp [runJoinURLs, h]
  · simp [runJoinURLs, h]
  · simp [runJoinURLs, h]

/-- Witness for C8 at concrete flag and config values. -/
theorem join_flag_overrides_config_witness :
    runJoinURLs ⟨"h", "u9", "b", "d"⟩ "u1" = parseURLs "u1" ∧
      runJoinURLs ⟨"h", "u9", "b", "d"⟩ "" = parseURLs "u9" :=
  ⟨(join_flag_overrides_config ⟨"h", "u9", "b", "d"⟩ "u1").1 (by decide),
   (join_flag_overrides_config ⟨"h", "u9", "b", "d"⟩ "").2.2 rfl⟩

/-- C10: a missing broker directory forces server initialization, even when
the data directory already exists. -/
theorem missing_broker_forces_init_server (fileExists : String → Bool)
    (config : Config) (h : initBroker fileExists config = true) :
    initServer fileExists config = true := by
  simp [initServer, h]

/-- Witness for C10: the data directory exists, the broker directory does
not, and initServer still comes out true. -/
theorem missing_broker_forces_init_server_witness :
    (fun p => p == "d") ("d" : String) = true ∧
      initBroker (fun p => p == "d") ⟨"h", "", "b", "d"⟩ = true ∧
      initServer (fun p => p == "d") ⟨"h", "", "b", "d"⟩ = true :=
  ⟨by decide, by decide,
   missing_broker_forces_init_server (fun p => p == "d") ⟨"h", "", "b", "d"⟩
     (by decide)⟩

/-- C1: when the broker directory already exists the init block neither
initializes nor joins, whatever join URLs were supplied. -/
theorem broker_state_authoritative (fileExists : String → Bool)
    (config : Config) (join : String)
    (h : fileExists config.BrokerDir = true) :
    brokerInitAction (initBroker fileExists config) (runJoinURLs config join) =
      InitAction.openExisting := by
  simp [brokerInitAction, initBroker, h]

/-- Witness for C1: broker directory present, a join URL supplied on the
flag, and the chosen action is still openExisting. -/
theorem broker_state_authoritative_witness :
    (fun _ => true) ("b" : String) = true ∧
      runJoinURLs ⟨"h", "", "b", "d"⟩ "u1" ≠ [] ∧
      brokerInitAction (initBroker (fun _ => true) ⟨"h", "", "b", "d"⟩)
          (runJoinURLs ⟨"h", "", "b", "d"⟩ "u1") = InitAction.openExisting :=
  ⟨rfl, by decide,
   broker_state_authoritative (fun _ => true) ⟨"h", "", "b", "d"⟩ "u1" rfl⟩

/-- C3: the init block calls Initialize exactly when the broker directory is
missing and the join URL list is empty. -/
theorem bootstrap_iff_new_and_no_join (fileExists : String → Bool)
    (config : Config) (join : String) :
    brokerInitAction (initBroker fileExists config) (runJoinURLs config join) =
        InitAction.callInitialize ↔
      (fileExists config.BrokerDir = false ∧ runJoinURLs config join = []) := by
  cases hB : fileExists config.BrokerDir <;>
    by_cases hj : runJoinURLs config join = [] <;>
      simp [brokerInitAction, initBroker, hB, hj]

/-- Result of joinLog / joinServer (run.go:371-382, 439-452). The loops
either return to the caller after a successful Join, or fall through to
log.Fatalf, which terminates the hosting process; they have no way of
returning a failure to the caller. -/
inductive JoinOutcome where
  /-- Some URL accepted the Join; control returns to the caller. -/
  | joined (u : URL)
  /-- Every URL failed; log.Fatalf terminates the process. -/
  | fatalExit
  deriving DecidableEq, Repr

/-- True on the outcome that terminates the hosting process. -/
def terminatesProcess : JoinOutcome → Bool
  | JoinOutcome.fatalExit => true
  | JoinOutcome.joined _ => false

/-- joinLog (run.go:371-382): try l.Join(u) on each URL in order; return on
the first success; log.Fatalf when the list is exhausted. The oracle ok
tells whether l.Join succeeds at a given URL. -/
def joinLog (ok : URL → Bool) : List URL → JoinOutcome
  | [] => JoinOutcome.fatalExit
  | u :: rest => if ok u then JoinOutcome.joined u else joinLog ok rest

/-- The URLs joinLog actually contacts, in order. -/
def joinLogAttempts (ok : URL → Bool) : List URL → List URL
  | [] => []
  | u :: rest => if ok u then [u] else u :: joinLogAttempts ok rest

/-- joinServer (run.go:439-452): identical loop over s.Join. -/
def joinServer (ok : URL → Bool) : List URL → JoinOutcome
  | [] => JoinOutcome.fatalExit
  | u :: rest => if ok u then JoinOutcome.joined u else joinServer ok rest

theorem joinLog_all_fail (ok : URL → Bool) (urls : List URL)
    (h : ∀ u ∈ urls, ok u = false) : joinLog ok urls = JoinOutcome.fatalExit := by
  induction urls with
  | nil => rfl
  | cons u rest ih =>
      have hu : ok u = false := h u (List.mem_cons_self u rest)
      have ih2 := ih (fun v hv => h v (List.mem_cons_of_mem u hv))
      simp [joinLog, hu, ih2]

theorem joinServer_all_fail (ok : URL → Bool) (urls : List URL)
    (h : ∀ u ∈ urls, ok u = false) : joinServer ok urls = JoinOutcome.fatalExit := by
  induction urls with
  | nil => rfl
  | cons u rest ih =>
      have hu : ok u = false := h u (List.mem_cons_self u rest)
      have ih2 := ih (fun v hv => h v (List.mem_cons_of_mem u hv))
      simp [joinServer, hu, ih2]

theorem joinLogAttempts_all_fail (ok : URL → Bool) (urls : List URL)
    (h : ∀ u ∈ urls, ok u = false) : joinLogAttempts ok urls = urls := by
  induction urls with
  | nil => rfl
  | cons u rest ih =>
      have hu : ok u = false := h u (List.mem_cons_self u rest)
      have ih2 := ih (fun v hv => h v (List.mem_cons_of_mem u hv))
      simp [joinLogAttempts, hu, ih2]

theorem joinLog_first_success (ok : URL → Bool) (pre post : List URL) (u : URL)
    (hpre : ∀ v ∈ pre, ok v = false) (hu : ok u = true) :
    joinLog ok (pre ++ u :: post) = JoinOutcome.joined u ∧
      joinLogAttempts ok (pre ++ u :: post) = pre ++ [u] := by
  induction pre with
  | nil => simp [joinLog, joinLogAttempts, hu]
  | cons w rest ih =>
      have hw : ok w = false := hpre w (List.mem_cons_self w rest)
      have ih2 := ih (fun v hv => hpre v (List.mem_cons_of_mem w hv))
      simp [joinLog, joinLogAttempts, hw, ih2.1, ih2.2]

/-- Counterexample to C2 as stated: with every address failing, joinLog and
joinServer terminate the hosting process (log.Fatalf) instead of returning
the exhaustion to the caller. -/
theorem join_exhaustion_fatal_cex :
    terminatesProcess (joinLog (fun _ => false) ["u1", "u2"]) = true ∧
      terminatesProcess (joinServer (fun _ => false) ["u1", "u2"]) = true :=
  ⟨rfl, rfl⟩

/-- C2 amended: when every configured join address has been tried and
failed, joinLog and joinServer fall through to log.Fatalf, terminating the
hosting process, rather than returning the condition to the caller. -/
theorem join_exhaustion_terminates (okL okS : URL → Bool) (urls : List URL)
    (hne : urls ≠ [])
    (hL : ∀ u ∈ urls, okL u = false) (hS : ∀ u ∈ urls, okS u = false) :
    joinLog okL urls = JoinOutcome.fatalExit ∧
      joinServer okS urls = JoinOutcome.fatalExit :=
  ⟨joinLog_all_fail okL urls hL, joinServer_all_fail okS urls hS⟩

/-- Witness for the amended C2 at a concrete failing URL list. -/
theorem join_exhaustion_terminates_witness :
    joinLog (fun _ => false) ["u1"] = JoinOutcome.fatalExit ∧
      joinServer (fun _ => false) ["u1"] = JoinOutcome.fatalExit :=
  join_exhaustion_terminates (fun _ => false) (fun _ => false) ["u1"]
    (by decide) (by simp) (by simp)

/-- C4: joinLog probes the URLs in the order given; if some prefix fails and
the next URL succeeds, it returns that URL having contacted exactly the
prefix plus that URL; if every URL fails, it contacted all of them before
declaring failure. -/
theorem joinLog_in_order (ok : URL → Bool) (urls pre post : List URL) (u : URL) :
    ((∀ v ∈ urls, ok v = false) →
        joinLog ok urls = JoinOutcome.fatalExit ∧
          joinLogAttempts ok urls = urls) ∧
    (urls = pre ++ u :: post → (∀ v ∈ pre, ok v = false) → ok u = true →
        joinLog ok urls = JoinOutcome.joined u ∧
          joinLogAttempts ok urls = pre ++ [u]) := by
  refine ⟨fun h => ⟨joinLog_all_fail ok urls h, joinLogAttempts_all_fail ok urls h⟩,
    fun hurls hpre hu => ?_⟩
  subst hurls
  exact joinLog_first_success ok pre post u hpre hu

/-- Witness for C4: out of three URLs with the second accepting, joinLog
joins the second and contacts exactly the first two. -/
theorem joinLog_in_order_witness :
    joinLog (fun v => v == "u2") ["u1", "u2", "u3"] = JoinOutcome.joined "u2" ∧
      joinLogAttempts (fun v => v == "u2") ["u1", "u2", "u3"] = ["u1", "u2"] :=
  (joinLog_in_order (fun v => v == "u2") ["u1", "u2", "u3"] ["u1"] ["u3"] "u2").2
    rfl (by decide) (by decide)

/-- Outcome of openBroker / openServer. The type distinguishes returning an
error to the hosting process from a log.Fatalf process termination; the
source code only ever produces ok or fatalExit, never errorReturn. -/
inductive OpenOutcome where
  | ok
  /-- An error value handed back to the caller (never produced by run.go). -/
  | errorReturn (msg : String)
  /-- log.Fatalf or log.Fatal: the process terminates. -/
  | fatalExit (msg : String)
  deriving DecidableEq, Repr

/-- True on the outcome that hands an error back to the caller. -/
def returnsError : OpenOutcome → Bool
  | OpenOutcome.errorReturn _ => true
  | _ => false

/-- Success oracles for the fallible steps inside openBroker. -/
structure BrokerEnv where
  /-- b.Open(path) succeeds. -/
  bOpenOk : Bool
  /-- l.Open(path/raft) succeeds. -/
  lOpenOk : Bool
  /-- l.Initialize() succeeds. -/
  lInitializeOk : Bool
  /-- l.Join(u) succeeds at the given URL. -/
  lJoinOk : URL → Bool

/-- openBroker (run.go:330-368): open the broker, open the raft log, then,
when initializing, either Initialize (no join URLs) or joinLog. Every
failure goes through log.Fatalf. -/
def openBroker (env : BrokerEnv) (initializing : Bool)
    (joinURLs : List URL) : OpenOutcome :=
  if env.bOpenOk = false then OpenOutcome.fatalExit "failed to open broker"
  else if env.lOpenOk = false then OpenOutcome.fatalExit "raft"
  else if initializing then
    if joinURLs = [] then
      if env.lInitializeOk = false then
        OpenOutcome.fatalExit "initialize raft log"
      else OpenOutcome.ok
    else
      match joinLog env.lJoinOk joinURLs with
      | JoinOutcome.joined _ => OpenOutcome.ok
      | JoinOutcome.fatalExit =>
          OpenOutcome.fatalExit "join: failed to connect raft log to any specified server"
  else OpenOutcome.ok

/-- Success oracles for the fallible steps inside openServer. -/
structure ServerEnv where
  /-- c.Open(...) succeeds. -/
  cOpenOk : Bool
  /-- The URL set held by the opened messaging client, as a function of the
  URLs it was seeded with (c.Open may rewrite them from its state file). -/
  cURLsAfterOpen : List URL → List URL
  /-- s.Open(...) succeeds. -/
  sOpenOk : Bool
  /-- s.Initialize(b.URL()) succeeds. -/
  sInitializeOk : Bool
  /-- s.Join(u, joinURL) succeeds at the given URL. -/
  sJoinOk : URL → Bool

/-- Seeding of the messaging client (run.go:386-390): the join URLs when
any were supplied, otherwise the local broker URL. -/
def clientSeedURLs (joinURLs : List URL) (brokerURL : URL) : List URL :=
  if joinURLs = [] then [brokerURL] else joinURLs

/-- openServer (run.go:385-436): seed and open the messaging client, check
it holds at least one broker URL, open the data server, then, when the
server is uninitialized, either Initialize (no join URLs, new broker) or
joinServer. Every failure goes through log.Fatalf / log.Fatal. -/
def openServer (env : ServerEnv) (brokerURL : URL)
    (initServerArg initBrokerArg : Bool) (joinURLs : List URL) : OpenOutcome :=
  if env.cOpenOk = false then OpenOutcome.fatalExit "messaging client error"
  else if env.cURLsAfterOpen (clientSeedURLs joinURLs brokerURL) = [] then
    OpenOutcome.fatalExit "messaging client has no broker URLs"
  else if env.sOpenOk = false then
    OpenOutcome.fatalExit "failed to open data server"
  else if initServerArg then
    if joinURLs = [] then
      if initBrokerArg then
        if env.sInitializeOk = false then
          OpenOutcome.fatalExit "server initialization error"
        else OpenOutcome.ok
      else OpenOutcome.ok
    else
      match joinServer env.sJoinOk joinURLs with
      | JoinOutcome.joined _ => OpenOutcome.ok
      | JoinOutcome.fatalExit =>
          OpenOutcome.fatalExit "join: failed to connect data node to any specified server"
  else OpenOutcome.ok

theorem openBroker_never_returns_error (env : BrokerEnv) (initializing : Bool)
    (joinURLs : List URL) :
    returnsError (openBroker env initializing joinURLs) = false := by
  unfold openBroker
  repeat' split
  all_goals rfl

theorem openServer_never_returns_error (env : ServerEnv) (brokerURL : URL)
    (initServerArg initBrokerArg : Bool) (joinURLs : List URL) :
    returnsError (openServer env brokerURL initServerArg initBrokerArg joinURLs) =
      false := by
  unfold openServer
  repeat' split
  all_goals rfl

/-- Counterexample to C6 as stated: with a failing broker open and a failing
messaging-client open, openBroker and openServer produce a log.Fatalf
process termination, not an error return to the hosting process. -/
theorem startup_fatal_not_error_cex :
    openBroker ⟨false, true, true, fun _ => true⟩ true [] =
        OpenOutcome.fatalExit "failed to open broker" ∧
      returnsError (openBroker ⟨false, true, true, fun _ => true⟩ true []) = false ∧
      openServer ⟨false, fun us => us, true, true, fun _ => true⟩ "u0" true true [] =
        OpenOutcome.fatalExit "messaging client error" ∧
      returnsError
          (openServer ⟨false, fun us => us, true, true, fun _ => true⟩ "u0" true true []) =
        false :=
  ⟨rfl, rfl, rfl, rfl⟩

/-- C6 amended: openBroker and openServer never hand an error back to the
hosting process; a failing step (open, initialize, join) instead reaches
log.Fatalf, which terminates the process, as shown here for the first
fallible step of each. -/
theorem startup_failures_are_fatal (benv : BrokerEnv) (senv : ServerEnv)
    (initializing initServerArg initBrokerArg : Bool)
    (joinURLs : List URL) (brokerURL : URL) :
    returnsError (openBroker benv initializing joinURLs) = false ∧
    returnsError (openServer senv brokerURL initServerArg initBrokerArg joinURLs) =
      false ∧
    (benv.bOpenOk = false →
      openBroker benv initializing joinURLs =
        OpenOutcome.fatalExit "failed to open broker") ∧
    (senv.cOpenOk = false →
      openServer senv brokerURL initServerArg initBrokerArg joinURLs =
        OpenOutcome.fatalExit "messaging client error") := by
  refine ⟨openBroker_never_returns_error benv initializing joinURLs,
    openServer_never_returns_error senv brokerURL initServerArg initBrokerArg joinURLs,
    fun h => ?_, fun h => ?_⟩
  · simp [openBroker, h]
  · simp [openServer, h]

/-- Witness for the amended C6 at concrete failing environments. -/
theorem startup_failures_are_fatal_witness :
    openBroker ⟨false, true, true, fun _ => false⟩ false [] =
        OpenOutcome.fatalExit "failed to open broker" ∧
      openServer ⟨false, fun us => us, true, true, fun _ => false⟩ "u0" false false [] =
        OpenOutcome.fatalExit "messaging client error" :=
  ⟨(startup_failures_are_fatal ⟨false, true, true, fun _ => false⟩
      ⟨false, fun us => us, true, true, fun _ => false⟩ false false false [] "u0").2.2.1
      rfl,
   (startup_failures_are_fatal ⟨false, true, true, fun _ => false⟩
      ⟨false, fun us => us, true, true, fun _ => false⟩ false false false [] "u0").2.2.2
      rfl⟩

/-- C7: the messaging client is seeded with the join URLs when any are
supplied and with the local broker URL otherwise, so the seed is never
empty; and if the opened client nevertheless holds zero broker URLs,
openServer fails startup (log.Fatal) instead of proceeding. -/
theorem client_always_has_broker_urls (env : ServerEnv) (brokerURL : URL)
    (initServerArg initBrokerArg : Bool) (joinURLs : List URL) :
    (clientSeedURLs joinURLs brokerURL ≠ []) ∧
    (joinURLs ≠ [] → clientSeedURLs joinURLs brokerURL = joinURLs) ∧
    (joinURLs = [] → clientSeedURLs joinURLs brokerURL = [brokerURL]) ∧
    (env.cOpenOk = true →
      env.cURLsAfterOpen (clientSeedURLs joinURLs brokerURL) = [] →
      openServer env brokerURL initServerArg initBrokerArg joinURLs =
        OpenOutcome.fatalExit "messaging client has no broker URLs") := by
  refine ⟨?_, fun h => ?_, fun h => ?_, fun h1 h2 => ?_⟩
  · by_cases h : joinURLs = [] <;> simp [clientSeedURLs, h]
  · simp [clientSeedURLs, h]
  · simp [clientSeedURLs, h]
  · simp [openServer, h1, h2]

/-- Witness for C7: no join URLs, so the client is seeded with the broker
URL; a client that comes back with zero URLs makes startup fail. -/
theorem client_always_has_broker_urls_witness :
    clientSeedURLs [] "u0" = ["u0"] ∧
      openServer ⟨true, fun _ => [], true, true, fun _ => true⟩ "u0" true true [] =
        OpenOutcome.fatalExit "messaging client has no broker URLs" :=
  ⟨(client_always_has_broker_urls ⟨true, fun _ => [], true, true, fun _ => true⟩
      "u0" true true []).2.2.1 rfl,
   (client_always_has_broker_urls ⟨true, fun _ => [], true, true, fun _ => true⟩
      "u0" true true []).2.2.2 rfl rfl⟩

/-- Oracles for the two config constructors parseConfig dispatches to:
NewConfig() for the default config and ParseConfigFile(path) for a file. -/
structure ConfigSource where
  NewConfig : Except String Config
  ParseConfigFile : String → Except String Config

/-- parseConfig (run.go:306-327): empty path yields the default config with
no override; otherwise the file is parsed and Hostname is overridden
exactly when the hostname argument is non-empty. -/
def parseConfig (src : ConfigSource) (path hostname : String) :
    Except String Config :=
  if path = "" then
    match src.NewConfig with
    | Except.error e =>
        Except.error ("failed to generate default config: " ++ e)
    | Except.ok c => Except.ok c
  else
    match src.ParseConfigFile path with
    | Except.error e => Except.error ("config: " ++ e)
    | Except.ok c =>
        Except.ok (if hostname = "" then c else { c with Hostname := hostname })

/-- C9: with an empty path the result ignores the hostname argument
entirely; with a non-empty path that parses, Hostname is overridden exactly
when the hostname argument is non-empty. -/
theorem hostname_override_only_with_config (src : ConfigSource)
    (path hostname hostname2 : String) (c : Config) :
    (parseConfig src "" hostname = parseConfig src "" hostname2) ∧
    (path ≠ "" → src.ParseConfigFile path = Except.ok c →
      parseConfig src path hostname =
        Except.ok (if hostname = "" then c else { c with Hostname := hostname })) := by
  refine ⟨rfl, fun hp hf => ?_⟩
  unfold parseConfig
  rw [if_neg hp, hf]

/-- Witness for C9: a concrete source where the empty-path result is
hostname-independent and a parsed file gets its Hostname overridden. -/
theorem hostname_override_only_with_config_witness :
    (parseConfig ⟨Except.ok ⟨"h0", "", "b", "d"⟩, fun _ => Except.ok ⟨"h0", "", "b", "d"⟩⟩
        "" "hostA" =
      parseConfig ⟨Except.ok ⟨"h0", "", "b", "d"⟩, fun _ => Except.ok ⟨"h0", "", "b", "d"⟩⟩
        "" "hostB") ∧
      parseConfig ⟨Except.ok ⟨"h0", "", "b", "d"⟩, fun _ => Except.ok ⟨"h0", "", "b", "d"⟩⟩
          "influxdb.conf" "hostA" =
        Except.ok ⟨"hostA", "", "b", "d"⟩ := by
  have h := hostname_override_only_with_config
    ⟨Except.ok ⟨"h0", "", "b", "d"⟩, fun _ => Except.ok ⟨"h0", "", "b", "d"⟩⟩
    "influxdb.conf" "hostA" "hostB" ⟨"h0", "", "b", "d"⟩
  refine ⟨h.1, ?_⟩
  rw [h.2 (by decide) rfl]
  rfl

/-- Modelled from the spec: the Raft Consensus Engine itself is not under
src/ (run.go only wires it up), so the election protocol is modelled from
its specification: each node casts at most one vote per term
(requestVote), and a candidate becomes leader of a term only on holding
votes from a strict majority of the cluster within that same term. -/
abbrev NodeId := Nat

/-- Modelled from the spec: raft terms. -/
abbrev RaftTerm := Nat

/-- Modelled from the spec: the cluster-wide election state over N nodes.
votedFor records the single vote each node may cast per term; leader
records which nodes have assumed leadership of which terms. -/
structure ElectionState (N : Nat) where
  votedFor : Fin N → RaftTerm → Option NodeId
  leader : NodeId → RaftTerm → Bool

/-- The set of nodes whose vote in term t went to candidate c. -/
def votersFor (N : Nat) (s : ElectionState N) (c : NodeId) (t : RaftTerm) :
    Finset (Fin N) :=
  Finset.univ.filter (fun m => s.votedFor m t = some c)

/-- A strict majority (quorum) of the N-node cluster. -/
def isMajority (N : Nat) (q : Finset (Fin N)) : Prop :=
  N < 2 * q.card

/-- Initially no node has voted and no node leads any term. -/
def electionInit (N : Nat) : ElectionState N :=
  { votedFor := fun _ _ => none, leader := fun _ _ => false }

/-- Modelled from the spec: one protocol step. grantVote lets a node that
has not yet voted in a term cast its one vote for that term; becomeLeader
lets a candidate holding a strict majority of the votes of a term assume
leadership of that term. Arbitrary interleavings of these steps cover all
failure and timeout sequences, since crashes and timeouts only restrict
which steps occur. -/
inductive ElectionStep (N : Nat) : ElectionState N → ElectionState N → Prop
  | grantVote (s : ElectionState N) (n : Fin N) (t : RaftTerm) (c : NodeId)
      (hnone : s.votedFor n t = none) :
      ElectionStep N s
        { s with votedFor := fun m u =>
            if m = n ∧ u = t then some c else s.votedFor m u }
  | becomeLeader (s : ElectionState N) (c : NodeId) (t : RaftTerm)
      (hmaj : isMajority N (votersFor N s c t)) :
      ElectionStep N s
        { s with leader := fun m u =>
            if m = c ∧ u = t then true else s.leader m u }

/-- States reachable from the initial state by protocol steps. -/
def ElectionReachable (N : Nat) (s : ElectionState N) : Prop :=
  Relation.ReflTransGen (ElectionStep N) (electionInit N) s

/-- Every node that leads a term holds a quorum of that term's votes. -/
def LeaderHasQuorum (N : Nat) (s : ElectionState N) : Prop :=
  ∀ c t, s.leader c t = true → isMajority N (votersFor N s c t)

theorem votersFor_subset_grantVote (N : Nat) (s : ElectionState N) (n : Fin N)
    (t : RaftTerm) (c : NodeId) (hnone : s.votedFor n t = none)
    (c2 : NodeId) (t2 : RaftTerm) :
    votersFor N s c2 t2 ⊆
      votersFor N
        { s with votedFor := fun m u =>
            if m = n ∧ u = t then some c else s.votedFor m u } c2 t2 := by
  intro m hm
  simp only [votersFor, Finset.mem_filter, Finset.mem_univ, true_and] at hm ⊢
  by_cases h : m = n ∧ t2 = t
  · obtain ⟨h1, h2⟩ := h
    subst h1
    subst h2
    rw [hnone] at hm
    exact Option.noConfusion hm
  · rw [if_neg h]
    exact hm

theorem leaderHasQuorum_step (N : Nat) (s s2 : ElectionState N)
    (hstep : ElectionStep N s s2) (hinv : LeaderHasQuorum N s) :
    LeaderHasQuorum N s2 := by
  cases hstep with
  | grantVote n t c hnone =>
      intro c2 t2 hl
      have hq := hinv c2 t2 hl
      have hsub := votersFor_subset_grantVote N s n t c hnone c2 t2
      have hcard := Finset.card_le_card hsub
      unfold isMajority at hq ⊢
      omega
  | becomeLeader c t hmaj =>
      intro c2 t2 hl
      have hl2 : (if c2 = c ∧ t2 = t then true else s.leader c2 t2) = true := hl
      by_cases h : c2 = c ∧ t2 = t
      · obtain ⟨h1, h2⟩ := h
        subst h1
        subst h2
        exact hmaj
      · rw [if_neg h] at hl2
        exact hinv c2 t2 hl2

theorem leaderHasQuorum_reachable (N : Nat) (s : ElectionState N)
    (h : ElectionReachable N s) : LeaderHasQuorum N s := by
  induction h with
  | refl =>
      intro c t hl
      exact Bool.noConfusion hl
  | tail hsteps hstep ih =>
      exact leaderHasQuorum_step N _ _ hstep ih

theorem majority_intersect (N : Nat) (A B : Finset (Fin N))
    (hA : isMajority N A) (hB : isMajority N B) : (A ∩ B).Nonempty := by
  unfold isMajority at hA hB
  by_contra h
  rw [Finset.not_nonempty_iff_eq_empty] at h
  have hcard : (A ∩ B).card = 0 := by rw [h]; rfl
  have hu : (A ∪ B).card ≤ N := by
    have hle := Finset.card_le_univ (A ∪ B)
    simpa using hle
  have hsum := Finset.card_union_add_card_inter A B
  omega

/-- C5, election safety: in every reachable cluster-wide election state, at
most one node leads any given term. Two leaders of one term would each hold
a quorum of that term's votes, two quorums share a voter, and a node casts
at most one vote per term. -/
theorem election_safety (N : Nat) (s : ElectionState N)
    (hreach : ElectionReachable N s) (c c2 : NodeId) (t : RaftTerm)
    (h1 : s.leader c t = true) (h2 : s.leader c2 t = true) : c = c2 := by
  have hq := leaderHasQuorum_reachable N s hreach
  have hA := hq c t h1
  have hB := hq c2 t h2
  obtain ⟨m, hm⟩ := majority_intersect N _ _ hA hB
  rw [Finset.mem_inter] at hm
  obtain ⟨hmA, hmB⟩ := hm
  simp only [votersFor, Finset.mem_filter, Finset.mem_univ, true_and] at hmA hmB
  rw [hmA] at hmB
  exact Option.some.inj hmB

/-- The one-node state where node 0 has voted for candidate 0 in term 1. -/
def electionVoted : ElectionState 1 :=
  { electionInit 1 with
    votedFor := fun m u =>
      if m = (0 : Fin 1) ∧ u = 1 then some 0 else (electionInit 1).votedFor m u }

/-- The one-node state where candidate 0 then became leader of term 1. -/
def electionLed : ElectionState 1 :=
  { electionVoted with
    leader := fun m u =>
      if m = (0 : NodeId) ∧ u = 1 then true else electionVoted.leader m u }

/-- Witness for C5: a concrete reachable state with a leader of term 1, at
which election safety applies. -/
theorem election_safety_witness :
    electionLed.leader 0 1 = true ∧ (0 : NodeId) = 0 := by
  have hr : ElectionReachable 1 electionLed :=
    Relation.ReflTransGen.head
      (ElectionStep.grantVote (electionInit 1) 0 1 0 rfl)
      (Relation.ReflTransGen.single
        (ElectionStep.becomeLeader electionVoted 0 1 (by
          show 1 < 2 * (votersFor 1 electionVoted 0 1).card
          decide)))
  have hl : electionLed.leader 0 1 = true := by decide
  exact ⟨hl, election_safety 1 electionLed hr 0 0 1 hl hl⟩

end Influxd
